import Mathlib

/-!
Verification of the crypto-lark-bot message pipeline.

This file gives a shallow embedding of the parts of the repository that the
claims concern:

* `src/lark_bot.py` — the message deduplication cache
  (`cleanup_message_cache`, `is_duplicate_message`) and the inbound-event
  processing pipeline (`process_message_event`);
* `src/bot/utils/handler_registry.py` — the command registry
  (`register`, `unregister`, `get_handler`) and the dispatcher
  (`execute_command`, `_send_error_message`);
* `src/bot/handlers/check_handler.py` — the balance-check handler's
  execution lock and its termination modes (`CheckHandler.handle`).

Time is modelled in integer milliseconds throughout.  The Python source keeps
the dedup cache timestamps in seconds (`time.time()`) and the staleness check
in milliseconds; over exact arithmetic `(now_ms - created_ms) / 1000 > 60` is
equivalent to `now_ms - created_ms > 60000`, and
`now_s - entry_s > 300` is equivalent to `now_ms - entry_ms > 300000`, so a
single millisecond time scale embeds both checks faithfully.
-/

/-! ## Deduplication cache (`src/lark_bot.py`, lines 33-68) -/

/-- The dedup cache `_PROCESSED_MESSAGES`: a finite map from string keys to
insertion timestamps, embedded as an association list.  The Python dict has
unique keys; entry order is never observed. -/
abbrev MsgCache := List (String × Int)

/-- `_MESSAGE_CACHE_TTL = 300` seconds, expressed in milliseconds. -/
def MESSAGE_CACHE_TTL_MS : Int := 300 * 1000

/-- The 60-second staleness threshold of `process_message_event`, in
milliseconds. -/
def OLD_MESSAGE_THRESHOLD_MS : Int := 60 * 1000

/-- `key in _PROCESSED_MESSAGES`: membership test on the cache keys. -/
def cacheHasKey (c : MsgCache) (k : String) : Bool :=
  match c with
  | [] => false
  | e :: rest => if e.1 = k then true else cacheHasKey rest k

/-- `cleanup_message_cache` (lines 37-45): delete every entry whose age
exceeds the TTL (`current_time - timestamp > _MESSAGE_CACHE_TTL`); keep the
rest. -/
def cleanup_message_cache (now : Int) (c : MsgCache) : MsgCache :=
  c.filter (fun e => decide (now - e.2 ≤ MESSAGE_CACHE_TTL_MS))

/-- `is_duplicate_message` (lines 47-68): clean old entries, then test
membership of `event:<event_id>` and `msg:<message_id>`; if either key is
present report a duplicate, otherwise record both keys at the current time
and report a fresh message.  Returns (duplicate?, cache afterwards); the
Python function mutates the module-level dict, which we thread explicitly. -/
def is_duplicate_message (now : Int) (event_id message_id : String)
    (c : MsgCache) : Bool × MsgCache :=
  let cleaned := cleanup_message_cache now c
  let event_key := "event:" ++ event_id
  let message_key := "msg:" ++ message_id
  if cacheHasKey cleaned event_key || cacheHasKey cleaned message_key then
    (true, cleaned)
  else
    (false, (message_key, now) :: (event_key, now) :: cleaned)

/-! ## Inbound event processing (`src/lark_bot.py`, lines 275-374) -/

/-- The fields of an inbound `im.message.receive_v1` event that
`process_message_event` consults before dispatching.  `is_from_bot`,
`is_command` and `in_commands_topic` stand for the parsed message's
`is_from_bot` flag, `message_parser.is_command` and
`topic_manager.is_topic_message` respectively. -/
structure InboundEvent where
  event_id : String
  message_id : String
  create_time_ms : Int
  is_from_bot : Bool
  is_command : Bool
  in_commands_topic : Bool
deriving DecidableEq

/-- Where `process_message_event` stopped for one delivery.  Every `dropped*`
outcome corresponds to a bare `return` in the source: no handler is invoked
and no outbound response is produced.  Only `dispatched` reaches
`handler_registry.execute_command`. -/
inductive ProcOutcome
  | droppedOld
  | droppedDuplicate
  | droppedBot
  | droppedNotCommand
  | droppedWrongTopic
  | dispatched
deriving DecidableEq

/-- `process_message_event` (lines 275-374), up to the dispatch decision:
staleness check first, then the duplicate filter, then the bot-message,
command and topic checks, in source order.  Returns the outcome together
with the dedup cache afterwards. -/
def process_message_event (now : Int) (ev : InboundEvent) (c : MsgCache) :
    ProcOutcome × MsgCache :=
  if now - ev.create_time_ms > OLD_MESSAGE_THRESHOLD_MS then
    (.droppedOld, c)
  else
    let r := is_duplicate_message now ev.event_id ev.message_id c
    if r.1 then (.droppedDuplicate, r.2)
    else if ev.is_from_bot then (.droppedBot, r.2)
    else if !ev.is_command then (.droppedNotCommand, r.2)
    else if !ev.in_commands_topic then (.droppedWrongTopic, r.2)
    else (.dispatched, r.2)

/-- Deliver the same inbound event once per time in `times`, threading the
dedup cache; collects the outcome of each delivery. -/
def deliverSeq (ev : InboundEvent) : List Int → MsgCache → List ProcOutcome × MsgCache
  | [], c => ([], c)
  | t :: ts, c =>
    let r := process_message_event t ev c
    let rest := deliverSeq ev ts r.2
    (r.1 :: rest.1, rest.2)

/-! ## Command registry (`src/bot/utils/handler_registry.py`) -/

/-- A registered command handler: its primary `name` and declared `aliases`
(`BaseHandler.name` / `BaseHandler.aliases`).  Handler behaviour is modelled
separately (see `execute_command` below). -/
structure Handler where
  name : String
  aliases : List String
deriving DecidableEq

/-- Python's `str.lower()` as used on the ASCII command names and aliases of
this codebase: lowercase each character.  (Defined over the character list so
it reduces inside the kernel; on ASCII input it agrees with both
`String.toLower` and Python's `str.lower()`.) -/
def pyLower (s : String) : String := String.mk (s.data.map Char.toLower)

/-- Lookup in a Python dict, embedded over the association list. -/
def alistGet {α : Type} (m : List (String × α)) (k : String) : Option α :=
  match m with
  | [] => none
  | e :: rest => if e.1 = k then some e.2 else alistGet rest k

/-- `dict[k] = v`: overwrite an existing binding in place, else append. -/
def alistSet {α : Type} (m : List (String × α)) (k : String) (v : α) :
    List (String × α) :=
  match m with
  | [] => [(k, v)]
  | e :: rest => if e.1 = k then (k, v) :: rest else e :: alistSet rest k v

/-- `del dict[k]`: remove the binding of `k` (a dict holds at most one). -/
def alistDel {α : Type} (m : List (String × α)) (k : String) :
    List (String × α) :=
  match m with
  | [] => []
  | e :: rest => if e.1 = k then alistDel rest k else e :: alistDel rest k

/-- `HandlerRegistry`'s resolution state: `self.handlers` (primary command
name → handler) and `self.aliases` (alias → primary command name).  The
middleware list is modelled at the dispatcher (`execute_command`) below. -/
structure HandlerRegistry where
  handlers : List (String × Handler)
  aliases : List (String × String)
deriving DecidableEq

/-- `HandlerRegistry.__init__`: empty maps. -/
def emptyRegistry : HandlerRegistry := { handlers := [], aliases := [] }

/-- `HandlerRegistry.register` (lines 65-75): store the handler under its
lowercased name (overwriting any existing one), then map each lowercased
alias to that name (overwriting any existing alias binding). -/
def HandlerRegistry.register (reg : HandlerRegistry) (h : Handler) :
    HandlerRegistry :=
  let command_name := (pyLower h.name)
  { handlers := alistSet reg.handlers command_name h
  , aliases := h.aliases.foldl
      (fun m a => alistSet m (pyLower a) command_name) reg.aliases }

/-- `HandlerRegistry.unregister` (lines 77-88): if the lowercased name is
unknown return `false` unchanged; otherwise delete the handler entry and
delete the binding of every alias the stored handler declares (each deletion
guarded by membership, which an absent-key delete already subsumes), and
return `true`. -/
def HandlerRegistry.unregister (reg : HandlerRegistry) (command_name : String) :
    Bool × HandlerRegistry :=
  let cn := (pyLower command_name)
  match alistGet reg.handlers cn with
  | none => (false, reg)
  | some handler =>
    (true,
     { handlers := alistDel reg.handlers cn
     , aliases := handler.aliases.foldl
         (fun m a => alistDel m (pyLower a)) reg.aliases })

/-- `HandlerRegistry.get_handler` (lines 90-97): lowercase the token; primary
names take precedence; otherwise a matching alias is followed one hop into
the handlers map (`self.handlers.get(actual_command)`), which may miss; the
alias map is never consulted twice. -/
def HandlerRegistry.get_handler (reg : HandlerRegistry) (command_name : String) :
    Option Handler :=
  let cn := (pyLower command_name)
  match alistGet reg.handlers cn with
  | some h => some h
  | none =>
    match alistGet reg.aliases cn with
    | some actual_command => alistGet reg.handlers actual_command
    | none => none

/-- Modelled from the spec's words (§4.1 `resolve(token)`): "lowercases the
input; if it matches a primary name, returns that handler; else if it matches
an alias, returns the handler of the name the alias maps to; else returns
not found."  Stated independently of `get_handler` for the refinement
theorem. -/
def resolve_spec (reg : HandlerRegistry) (token : String) : Option Handler :=
  let t := (pyLower token)
  if (alistGet reg.handlers t).isSome then
    alistGet reg.handlers t
  else if (alistGet reg.aliases t).isSome then
    match alistGet reg.aliases t with
    | some primary => alistGet reg.handlers primary
    | none => none
  else
    none

/-! ## Dispatcher (`HandlerRegistry.execute_command`, lines 106-133) -/

/-- What one middleware predicate does when awaited on the current context:
return `True`, return a falsy value, or raise. -/
inductive MwResult
  | cont
  | block
  | throw
deriving DecidableEq

/-- What `handler.handle(context)` does: return a boolean or raise. -/
inductive HandlerResult
  | ok (b : Bool)
  | throw
deriving DecidableEq

/-- Messages the dispatcher itself can emit (handlers and middleware send
their own messages; those are not dispatcher messages). -/
inductive DispatcherMsg
  | unknownCommandCard
  | unknownCommandText
  | errorCard
  | errorText
deriving DecidableEq

/-- One dispatch's environment: the behaviour of each registered middleware
on this context (in registration order), the outcome of the registry lookup
together with the found handler's behaviour (`none` = `get_handler` returned
nothing), and whether each of the dispatcher's own send attempts would
succeed. -/
structure DispatchEnv where
  middleware : List MwResult
  handlerLookup : Option HandlerResult
  sendUnknownCardOk : Bool
  sendUnknownTextOk : Bool
  sendErrorCardOk : Bool
  sendErrorTextOk : Bool
deriving DecidableEq

/-- Observable trace of one `execute_command` call.  The model is a total
function: the source catches every exception inside `execute_command`, so no
dispatch ever raises to its caller. -/
structure DispatchTrace where
  middlewareRan : Nat
  lookupHappened : Bool
  handlerRan : Bool
  messages : List DispatcherMsg
  success : Bool
deriving DecidableEq

/-- The middleware loop (lines 107-115): run predicates in order; a falsy
return or a raise is caught and stops the loop with a failed dispatch and no
dispatcher message.  Returns (number of predicates invoked, all passed?). -/
def runMiddleware : List MwResult → Nat × Bool
  | [] => (0, true)
  | .cont :: rest =>
    let r := runMiddleware rest
    (r.1 + 1, r.2)
  | .block :: _ => (1, false)
  | .throw :: _ => (1, false)

/-- `HandlerRegistry._send_unknown_command_message` (lines 290-307): try the
rich card; if that send raises, try the plain-text fallback; if that also
raises, swallow.  Returns the messages actually delivered. -/
def send_unknown_command_message (cardOk textOk : Bool) : List DispatcherMsg :=
  if cardOk then [.unknownCommandCard]
  else if textOk then [.unknownCommandText]
  else []

/-- `HandlerRegistry._send_error_message` (lines 316-328): same
card-then-text-then-swallow structure for the command-error response. -/
def send_error_message (cardOk textOk : Bool) : List DispatcherMsg :=
  if cardOk then [.errorCard]
  else if textOk then [.errorText]
  else []

/-- `HandlerRegistry.execute_command` (lines 106-133): middleware chain, then
registry lookup (unknown command → unknown-command response, failure), then
handler invocation; a `False` return is a soft failure with no dispatcher
message; a raise is caught, answered with the command-error response, and
converted to failure. -/
def execute_command (env : DispatchEnv) : DispatchTrace :=
  let mw := runMiddleware env.middleware
  if mw.2 then
    match env.handlerLookup with
    | none =>
      { middlewareRan := mw.1, lookupHappened := true, handlerRan := false
      , messages := send_unknown_command_message env.sendUnknownCardOk env.sendUnknownTextOk
      , success := false }
    | some (.ok b) =>
      { middlewareRan := mw.1, lookupHappened := true, handlerRan := true
      , messages := [], success := b }
    | some .throw =>
      { middlewareRan := mw.1, lookupHappened := true, handlerRan := true
      , messages := send_error_message env.sendErrorCardOk env.sendErrorTextOk
      , success := false }
  else
    { middlewareRan := mw.1, lookupHappened := false, handlerRan := false
    , messages := [], success := false }

/-! ## Balance-check handler (`src/bot/handlers/check_handler.py`) -/

/-- `asyncio.wait_for(..., timeout=30.0)` in `CheckHandler.handle`
(line 171): the balance-fetch timeout, in seconds. -/
def BALANCE_FETCH_TIMEOUT_SECONDS : Nat := 30

/-- Messages `CheckHandler.handle` can send, one per send site in the
source. -/
inductive CheckMsg
  | disabledMsg
  | noWalletsCard
  | notFoundErrorCard
  | checkingCard
  | timeoutErrorCard
  | fetchErrorCard
  | balanceTableCard
  | errorFallbackText
deriving DecidableEq

/-- The termination modes of the body of `CheckHandler.handle` once the lock
has been taken (lines 118-209), one per `return`/raise path:

* `disabled` — `self.enabled` is false: disabled message, `return False`;
* `noWallets` — wallet list empty or load failed: no-wallets card,
  `return True`;
* `emptyResolve` — inputs given but none resolved: not-found error card,
  `return False`;
* `timeout` — `asyncio.TimeoutError` after the 30-second
  `asyncio.wait_for`: checking card then timeout card, `return False`;
* `fetchError` — zero successful balance fetches: checking card then
  fetch-error card, `return False`;
* `success` — checking card then balance table card, `return True`;
* `exception` — a raise inside the body, caught by the handler's own
  `except`: fallback error text, `return False` (messages the body sent
  before raising are not modelled — no claim concerns them);
* `exceptionUnsendable` — as `exception`, but the `except` block's own send
  raises too, so the exception escapes the handler (through `finally`) to
  `execute_command`. -/
inductive BodyPath
  | disabled
  | noWallets
  | emptyResolve
  | timeout
  | fetchError
  | success
  | exception
  | exceptionUnsendable
deriving DecidableEq

/-- The value (or raise) the body hands back through the handler's
`try`/`except`. -/
def bodyOutcome : BodyPath → HandlerResult
  | .noWallets => .ok true
  | .success => .ok true
  | .exceptionUnsendable => .throw
  | _ => .ok false

/-- The messages the body sends on each path. -/
def bodyMessages : BodyPath → List CheckMsg
  | .disabled => [.disabledMsg]
  | .noWallets => [.noWalletsCard]
  | .emptyResolve => [.notFoundErrorCard]
  | .timeout => [.checkingCard, .timeoutErrorCard]
  | .fetchError => [.checkingCard, .fetchErrorCard]
  | .success => [.checkingCard, .balanceTableCard]
  | .exception => [.errorFallbackText]
  | .exceptionUnsendable => []

/-- Observable result of one `CheckHandler.handle` invocation. -/
structure HandleResult where
  bodyRan : Bool
  outcome : HandlerResult
  messages : List CheckMsg
  lockAfter : Bool
deriving DecidableEq

/-- `CheckHandler.handle` (lines 106-209) around the module-level
`_CHECK_EXECUTION_LOCK`: if the lock is already set, log and `return False`
without touching the lock, sending nothing and running no body; otherwise
set the lock, run the body to its termination mode, and clear the lock in
the `finally` block on every path out. -/
def check_handle (lockBefore : Bool) (path : BodyPath) : HandleResult :=
  if lockBefore then
    { bodyRan := false, outcome := .ok false, messages := [], lockAfter := lockBefore }
  else
    { bodyRan := true, outcome := bodyOutcome path
    , messages := bodyMessages path, lockAfter := false }

/-! ## Invariants and concrete fixtures -/

/-- The pair `(eid, mid)` has been recorded in the cache at time `t₁` and no
entry under either dedup key carries any other timestamp (duplicate
deliveries never refresh the recorded time). -/
def DedupMarked (eid mid : String) (t₁ : Int) (c : MsgCache) : Prop :=
  ("event:" ++ eid, t₁) ∈ c ∧ ("msg:" ++ mid, t₁) ∈ c ∧
  ∀ e ∈ c, (e.1 = "event:" ++ eid ∨ e.1 = "msg:" ++ mid) → e.2 = t₁

/-- Concrete fixture: a fresh, on-topic command event. -/
def evW : InboundEvent :=
  { event_id := "e1", message_id := "m1", create_time_ms := 1000000
  , is_from_bot := false, is_command := true, in_commands_topic := true }

/-- Identifier-less fixtures for the C9 witness: two different events, both
with empty `eventId`/`messageId`. -/
def evNoIds1 : InboundEvent :=
  { event_id := "", message_id := "", create_time_ms := 2000000
  , is_from_bot := false, is_command := true, in_commands_topic := true }

def evNoIds2 : InboundEvent :=
  { event_id := "", message_id := "", create_time_ms := 2005000
  , is_from_bot := false, is_command := true, in_commands_topic := true }

/-- The source's `CheckHandler` as registry data: primary name `check`,
aliases `balance` and `bal` (`check_handler.py`, lines 24-28). -/
def checkHandlerFix : Handler := { name := "check", aliases := ["balance", "bal"] }

/-- Registry with only the check handler registered. -/
def regCheckFix : HandlerRegistry := emptyRegistry.register checkHandlerFix

/-- Fixture handlers for the alias-chaining and shared-alias scenarios. -/
def handlerYFix : Handler := { name := "y", aliases := ["x"] }

def handlerZFix : Handler := { name := "z", aliases := ["y"] }

/-- Registry whose alias map contains the chain `x ↦ y` and `y ↦ z` while a
handler named `y` exists: exercises one-hop resolution. -/
def regChainFix : HandlerRegistry :=
  (emptyRegistry.register handlerYFix).register handlerZFix

def handlerAFix : Handler := { name := "a", aliases := ["x"] }

def handlerBFix : Handler := { name := "b", aliases := ["x"] }

/-- Registry where `a` and then `b` were registered, both declaring alias
`x`; the later registration remapped `x ↦ b`. -/
def regSharedAliasFix : HandlerRegistry :=
  (emptyRegistry.register handlerAFix).register handlerBFix

/-- A dispatch environment whose sends all succeed, with the given
middleware behaviours and handler lookup result. -/
def envFix (ms : List MwResult) (hl : Option HandlerResult) : DispatchEnv :=
  { middleware := ms, handlerLookup := hl
  , sendUnknownCardOk := true, sendUnknownTextOk := true
  , sendErrorCardOk := true, sendErrorTextOk := true }

/-! ## Lemmas about the dedup cache -/

lemma cacheHasKey_of_mem {c : MsgCache} {k : String} {t : Int}
    (h : (k, t) ∈ c) : cacheHasKey c k = true := by
  induction c with
  | nil => simp at h
  | cons e rest ih =>
    rcases List.mem_cons.mp h with h1 | h1
    · simp [cacheHasKey, ← h1]
    · by_cases hk : e.1 = k
      · simp [cacheHasKey, hk]
      · simpa [cacheHasKey, hk] using ih h1

lemma keys_ne_of_not_hasKey {c : MsgCache} {k : String}
    (h : cacheHasKey c k = false) : ∀ e ∈ c, e.1 ≠ k := by
  induction c with
  | nil => simp
  | cons e rest ih =>
    by_cases hk : e.1 = k
    · simp [cacheHasKey, hk] at h
    · intro f hf
      rcases List.mem_cons.mp hf with h1 | h1
      · simpa [h1] using hk
      · exact ih (by simpa [cacheHasKey, hk] using h) f h1

lemma cacheHasKey_false_of {c : MsgCache} {k : String}
    (h : ∀ e ∈ c, e.1 ≠ k) : cacheHasKey c k = false := by
  induction c with
  | nil => simp [cacheHasKey]
  | cons e rest ih =>
    have he := h e (List.mem_cons_self e rest)
    simp [cacheHasKey, he]
    exact ih (fun f hf => h f (List.mem_cons_of_mem e hf))

lemma mem_cleanup {now : Int} {c : MsgCache} {e : String × Int}
    (h : e ∈ c) (ht : now - e.2 ≤ MESSAGE_CACHE_TTL_MS) :
    e ∈ cleanup_message_cache now c :=
  List.mem_filter.mpr ⟨h, decide_eq_true ht⟩

lemma mem_of_mem_cleanup {now : Int} {c : MsgCache} {e : String × Int}
    (h : e ∈ cleanup_message_cache now c) : e ∈ c :=
  (List.mem_filter.mp h).1

lemma cacheHasKey_cleanup_false {now : Int} {c : MsgCache} {k : String}
    (h : ∀ e ∈ c, e.1 = k → now - e.2 > MESSAGE_CACHE_TTL_MS) :
    cacheHasKey (cleanup_message_cache now c) k = false := by
  refine cacheHasKey_false_of (fun e he hk => ?_)
  have hmem := (List.mem_filter.mp he).1
  have hkeep : now - e.2 ≤ MESSAGE_CACHE_TTL_MS :=
    of_decide_eq_true (List.mem_filter.mp he).2
  exact absurd hkeep (by have := h e hmem hk; omega)

lemma is_duplicate_message_fresh {now : Int} {eid mid : String} {c : MsgCache}
    (he : cacheHasKey (cleanup_message_cache now c) ("event:" ++ eid) = false)
    (hm : cacheHasKey (cleanup_message_cache now c) ("msg:" ++ mid) = false) :
    is_duplicate_message now eid mid c =
      (false, ("msg:" ++ mid, now) :: ("event:" ++ eid, now) ::
        cleanup_message_cache now c) ∧
    DedupMarked eid mid now (is_duplicate_message now eid mid c).2 := by
  have heq : is_duplicate_message now eid mid c =
      (false, ("msg:" ++ mid, now) :: ("event:" ++ eid, now) ::
        cleanup_message_cache now c) := by
    simp [is_duplicate_message, he, hm]
  refine ⟨heq, ?_⟩
  rw [heq]
  refine ⟨by simp, by simp, ?_⟩
  intro e hmem hkey
  rcases List.mem_cons.mp hmem with h1 | h1
  · rw [h1]
  rcases List.mem_cons.mp h1 with h2 | h2
  · rw [h2]
  rcases hkey with hk | hk
  · exact absurd hk (keys_ne_of_not_hasKey he e h2)
  · exact absurd hk (keys_ne_of_not_hasKey hm e h2)

lemma is_duplicate_message_marked {now t₁ : Int} {eid mid : String} {c : MsgCache}
    (hM : DedupMarked eid mid t₁ c) (ht : now - t₁ ≤ MESSAGE_CACHE_TTL_MS) :
    is_duplicate_message now eid mid c = (true, cleanup_message_cache now c) ∧
    DedupMarked eid mid t₁ (cleanup_message_cache now c) := by
  obtain ⟨hE, hMm, hall⟩ := hM
  have hE' := mem_cleanup hE ht
  have hM' := mem_cleanup hMm ht
  have hkey := cacheHasKey_of_mem hE'
  constructor
  · simp [is_duplicate_message, hkey]
  · exact ⟨hE', hM', fun e hmem hk => hall e (mem_of_mem_cleanup hmem) hk⟩

lemma process_message_event_fresh {now : Int} {ev : InboundEvent} {c : MsgCache}
    (hage : now - ev.create_time_ms ≤ OLD_MESSAGE_THRESHOLD_MS)
    (he : cacheHasKey (cleanup_message_cache now c) ("event:" ++ ev.event_id) = false)
    (hm : cacheHasKey (cleanup_message_cache now c) ("msg:" ++ ev.message_id) = false)
    (hbot : ev.is_from_bot = false) (hcmd : ev.is_command = true)
    (htop : ev.in_commands_topic = true) :
    (process_message_event now ev c).1 = ProcOutcome.dispatched ∧
    DedupMarked ev.event_id ev.message_id now (process_message_event now ev c).2 := by
  obtain ⟨heq, hmark⟩ := is_duplicate_message_fresh he hm
  have hproc : process_message_event now ev c =
      (ProcOutcome.dispatched, (is_duplicate_message now ev.event_id ev.message_id c).2) := by
    unfold process_message_event
    rw [if_neg (by omega)]
    simp [heq, hbot, hcmd, htop]
  rw [hproc]
  exact ⟨rfl, hmark⟩

lemma process_message_event_marked {now t₁ : Int} {ev : InboundEvent} {c : MsgCache}
    (hage : now - ev.create_time_ms ≤ OLD_MESSAGE_THRESHOLD_MS)
    (hM : DedupMarked ev.event_id ev.message_id t₁ c)
    (ht : now - t₁ ≤ MESSAGE_CACHE_TTL_MS) :
    process_message_event now ev c =
      (ProcOutcome.droppedDuplicate, cleanup_message_cache now c) ∧
    DedupMarked ev.event_id ev.message_id t₁ (cleanup_message_cache now c) := by
  obtain ⟨heq, hmark⟩ := is_duplicate_message_marked hM ht
  refine ⟨?_, hmark⟩
  unfold process_message_event
  rw [if_neg (by omega)]
  simp [heq]

lemma deliverSeq_marked {ev : InboundEvent} {t₁ : Int} :
    ∀ {ts : List Int} {c : MsgCache},
      DedupMarked ev.event_id ev.message_id t₁ c →
      (∀ t ∈ ts, t - ev.create_time_ms ≤ OLD_MESSAGE_THRESHOLD_MS) →
      (∀ t ∈ ts, t - t₁ ≤ MESSAGE_CACHE_TTL_MS) →
      (deliverSeq ev ts c).1 = ts.map (fun _ => ProcOutcome.droppedDuplicate) ∧
      DedupMarked ev.event_id ev.message_id t₁ (deliverSeq ev ts c).2 := by
  intro ts
  induction ts with
  | nil => intro c hM _ _; exact ⟨rfl, hM⟩
  | cons t ts ih =>
    intro c hM hf hw
    obtain ⟨hstep, hmark⟩ :=
      process_message_event_marked (hf t (List.mem_cons_self t ts)) hM
        (hw t (List.mem_cons_self t ts))
    have ihr := ih hmark
      (fun u hu => hf u (List.mem_cons_of_mem t hu))
      (fun u hu => hw u (List.mem_cons_of_mem t hu))
    simp only [deliverSeq, hstep]
    exact ⟨by simp [ihr.1], ihr.2⟩

/-! ## Claim theorems: deduplication and staleness -/

/-- C2: for every sequence of inbound deliveries of the same
`(eventId, messageId)` pair — all fresh, commanding, non-bot, on-topic, the
pair unseen beforehand — in which every later delivery falls within the
300-second dedup TTL of the first, exactly the first delivery passes the
duplicate filter and is dispatched; every subsequent delivery is dropped as a
duplicate (a bare return, no outbound response). -/
theorem dedup_exactly_once_within_ttl (ev : InboundEvent) (t₁ : Int)
    (ts : List Int) (c₀ : MsgCache)
    (he : cacheHasKey (cleanup_message_cache t₁ c₀) ("event:" ++ ev.event_id) = false)
    (hm : cacheHasKey (cleanup_message_cache t₁ c₀) ("msg:" ++ ev.message_id) = false)
    (hf₁ : t₁ - ev.create_time_ms ≤ OLD_MESSAGE_THRESHOLD_MS)
    (hf : ∀ t ∈ ts, t - ev.create_time_ms ≤ OLD_MESSAGE_THRESHOLD_MS)
    (hw : ∀ t ∈ ts, t - t₁ ≤ MESSAGE_CACHE_TTL_MS)
    (hbot : ev.is_from_bot = false) (hcmd : ev.is_command = true)
    (htop : ev.in_commands_topic = true) :
    (deliverSeq ev (t₁ :: ts) c₀).1 =
      ProcOutcome.dispatched :: ts.map (fun _ => ProcOutcome.droppedDuplicate) ∧
    (deliverSeq ev (t₁ :: ts) c₀).1.count ProcOutcome.dispatched = 1 := by
  obtain ⟨h1, hmark⟩ := process_message_event_fresh hf₁ he hm hbot hcmd htop
  have htail := deliverSeq_marked hmark hf hw
  have hseq : (deliverSeq ev (t₁ :: ts) c₀).1 =
      (process_message_event t₁ ev c₀).1 ::
        (deliverSeq ev ts (process_message_event t₁ ev c₀).2).1 := rfl
  have hlist : (deliverSeq ev (t₁ :: ts) c₀).1 =
      ProcOutcome.dispatched :: ts.map (fun _ => ProcOutcome.droppedDuplicate) := by
    rw [hseq, h1, htail.1]
  refine ⟨hlist, ?_⟩
  rw [hlist]
  have hzero : (ts.map (fun _ => ProcOutcome.droppedDuplicate)).count
      ProcOutcome.dispatched = 0 := by
    refine List.count_eq_zero.mpr (fun hmem => ?_)
    rcases List.mem_map.mp hmem with ⟨x, _, hx⟩
    exact ProcOutcome.noConfusion hx
  simp only [List.count_cons, hzero]
  decide

/-- Witness for C2 at a concrete triple delivery. -/
theorem dedup_exactly_once_within_ttl_witness :
    (deliverSeq evW [1000500, 1001000, 1002000] []).1 =
      ProcOutcome.dispatched ::
        [(1001000 : Int), 1002000].map (fun _ => ProcOutcome.droppedDuplicate) ∧
    (deliverSeq evW [1000500, 1001000, 1002000] []).1.count ProcOutcome.dispatched = 1 :=
  dedup_exactly_once_within_ttl evW 1000500 [1001000, 1002000] []
    (by decide) (by decide) (by decide) (by decide) (by decide) rfl rfl rfl

/-- C3: an event older than 60 seconds is dropped before any deduplication
bookkeeping: the outcome is the stale drop, the dedup cache is returned
unchanged, and any later delivery (same identifiers or not) behaves exactly
as if the stale event had never arrived. -/
theorem stale_event_dropped_before_dedup (now : Int) (ev : InboundEvent)
    (c : MsgCache) (h : now - ev.create_time_ms > OLD_MESSAGE_THRESHOLD_MS) :
    process_message_event now ev c = (ProcOutcome.droppedOld, c) ∧
    ∀ (t' : Int) (ev' : InboundEvent),
      process_message_event t' ev' (process_message_event now ev c).2 =
        process_message_event t' ev' c := by
  have h1 : process_message_event now ev c = (ProcOutcome.droppedOld, c) := by
    unfold process_message_event
    rw [if_pos h]
  exact ⟨h1, fun t' ev' => by rw [h1]⟩

/-- Witness for C3: a 70-second-old event is dropped with the cache intact,
and a later fresh delivery of the same identifiers is dispatched. -/
theorem stale_event_dropped_before_dedup_witness :
    process_message_event 1070000 evW [] = (ProcOutcome.droppedOld, []) ∧
    (process_message_event 1000500 evW (process_message_event 1070000 evW []).2).1 =
      ProcOutcome.dispatched := by
  have h := stale_event_dropped_before_dedup 1070000 evW [] (by decide)
  refine ⟨h.1, ?_⟩
  rw [h.2 1000500 evW]
  decide

/-- C5: after the pair is first recorded at `t₁` (with any number of
duplicate deliveries in between, none of which refreshes the recorded
timestamp), a re-delivery at `t'` with `t' - t₁` beyond the 300-second TTL is
not classified as a duplicate — the expired entries are evicted before the
membership check — and a fresh event carrying the same identifiers is
dispatched again. -/
theorem dedup_entry_expires_after_ttl (ev ev' : InboundEvent) (t₁ t' : Int)
    (ts : List Int) (c₀ : MsgCache)
    (hide : ev'.event_id = ev.event_id) (hidm : ev'.message_id = ev.message_id)
    (he : cacheHasKey (cleanup_message_cache t₁ c₀) ("event:" ++ ev.event_id) = false)
    (hm : cacheHasKey (cleanup_message_cache t₁ c₀) ("msg:" ++ ev.message_id) = false)
    (hf₁ : t₁ - ev.create_time_ms ≤ OLD_MESSAGE_THRESHOLD_MS)
    (hf : ∀ t ∈ ts, t - ev.create_time_ms ≤ OLD_MESSAGE_THRESHOLD_MS)
    (hw : ∀ t ∈ ts, t - t₁ ≤ MESSAGE_CACHE_TTL_MS)
    (hbot : ev.is_from_bot = false) (hcmd : ev.is_command = true)
    (htop : ev.in_commands_topic = true)
    (hexp : t' - t₁ > MESSAGE_CACHE_TTL_MS)
    (hf' : t' - ev'.create_time_ms ≤ OLD_MESSAGE_THRESHOLD_MS)
    (hbot' : ev'.is_from_bot = false) (hcmd' : ev'.is_command = true)
    (htop' : ev'.in_commands_topic = true) :
    (is_duplicate_message t' ev'.event_id ev'.message_id
        (deliverSeq ev (t₁ :: ts) c₀).2).1 = false ∧
    (process_message_event t' ev' (deliverSeq ev (t₁ :: ts) c₀).2).1 =
      ProcOutcome.dispatched := by
  obtain ⟨h1, hmark⟩ := process_message_event_fresh hf₁ he hm hbot hcmd htop
  have htail := deliverSeq_marked hmark hf hw
  have hfin : (deliverSeq ev (t₁ :: ts) c₀).2 =
      (deliverSeq ev ts (process_message_event t₁ ev c₀).2).2 := rfl
  rw [hfin]
  obtain ⟨-, -, hall⟩ := htail.2
  have he' : cacheHasKey (cleanup_message_cache t'
      (deliverSeq ev ts (process_message_event t₁ ev c₀).2).2)
      ("event:" ++ ev'.event_id) = false := by
    rw [hide]
    refine cacheHasKey_cleanup_false (fun e hmem hk => ?_)
    have := hall e hmem (Or.inl hk)
    omega
  have hm' : cacheHasKey (cleanup_message_cache t'
      (deliverSeq ev ts (process_message_event t₁ ev c₀).2).2)
      ("msg:" ++ ev'.message_id) = false := by
    rw [hidm]
    refine cacheHasKey_cleanup_false (fun e hmem hk => ?_)
    have := hall e hmem (Or.inr hk)
    omega
  refine ⟨?_, (process_message_event_fresh hf' he' hm' hbot' hcmd' htop').1⟩
  rw [(is_duplicate_message_fresh he' hm').1]

/-- Witness for C5: first delivery at `t₁ = 1000500`, a duplicate at
`1001000`, then a fresh same-identifier event 399.5 seconds later is
dispatched again. -/
theorem dedup_entry_expires_after_ttl_witness :
    (is_duplicate_message 1400000 evW.event_id evW.message_id
        (deliverSeq evW [1000500, 1001000] []).2).1 = false ∧
    (process_message_event 1400000
        { evW with create_time_ms := 1399000 }
        (deliverSeq evW [1000500, 1001000] []).2).1 = ProcOutcome.dispatched :=
  dedup_entry_expires_after_ttl evW { evW with create_time_ms := 1399000 }
    1000500 1400000 [1001000] [] rfl rfl (by decide) (by decide) (by decide)
    (by decide) (by decide) rfl rfl rfl (by decide) (by decide) rfl rfl rfl

/-- C9: two genuinely distinct inbound events that both lack transport
identifiers (`eventId` and `messageId` default to the empty string) collide
in the dedup cache: the keys degenerate to the constant strings `"event:"`
and `"msg:"`, so the first event is dispatched and the second, arriving
within the 300-second TTL, is classified as a duplicate and silently
dropped. -/
theorem missing_ids_collide_in_dedup (ev₁ ev₂ : InboundEvent) (t₁ t₂ : Int)
    (c₀ : MsgCache)
    (h1e : ev₁.event_id = "") (h1m : ev₁.message_id = "")
    (h2e : ev₂.event_id = "") (h2m : ev₂.message_id = "")
    (hne : ev₁ ≠ ev₂)
    (he : cacheHasKey (cleanup_message_cache t₁ c₀) "event:" = false)
    (hm : cacheHasKey (cleanup_message_cache t₁ c₀) "msg:" = false)
    (hf₁ : t₁ - ev₁.create_time_ms ≤ OLD_MESSAGE_THRESHOLD_MS)
    (hbot : ev₁.is_from_bot = false) (hcmd : ev₁.is_command = true)
    (htop : ev₁.in_commands_topic = true)
    (hf₂ : t₂ - ev₂.create_time_ms ≤ OLD_MESSAGE_THRESHOLD_MS)
    (hw : t₂ - t₁ ≤ MESSAGE_CACHE_TTL_MS) :
    (process_message_event t₁ ev₁ c₀).1 = ProcOutcome.dispatched ∧
    (process_message_event t₂ ev₂ (process_message_event t₁ ev₁ c₀).2).1 =
      ProcOutcome.droppedDuplicate := by
  have hkey_e : "event:" ++ ev₁.event_id = "event:" := by rw [h1e]; decide
  have hkey_m : "msg:" ++ ev₁.message_id = "msg:" := by rw [h1m]; decide
  obtain ⟨h1, hmark⟩ := process_message_event_fresh hf₁
    (by rw [hkey_e]; exact he) (by rw [hkey_m]; exact hm) hbot hcmd htop
  have hmark₂ : DedupMarked ev₂.event_id ev₂.message_id t₁
      (process_message_event t₁ ev₁ c₀).2 := by
    rw [h2e, h2m]
    rw [h1e, h1m] at hmark
    exact hmark
  obtain ⟨h2, -⟩ := process_message_event_marked hf₂ hmark₂ hw
  exact ⟨h1, by rw [h2]⟩

/-- Witness for C9 at two concrete distinct identifier-less events. -/
theorem missing_ids_collide_in_dedup_witness :
    (process_message_event 2000500 evNoIds1 []).1 = ProcOutcome.dispatched ∧
    (process_message_event 2005500 evNoIds2
        (process_message_event 2000500 evNoIds1 []).2).1 =
      ProcOutcome.droppedDuplicate :=
  missing_ids_collide_in_dedup evNoIds1 evNoIds2 2000500 2005500 []
    rfl rfl rfl rfl (by decide) (by decide) (by decide) (by decide)
    rfl rfl rfl (by decide) (by decide)

/-! ## Lemmas about the dispatcher and the registry -/

lemma runMiddleware_all_cont {ms : List MwResult}
    (h : ∀ m ∈ ms, m = MwResult.cont) : runMiddleware ms = (ms.length, true) := by
  induction ms with
  | nil => rfl
  | cons m rest ih =>
    have hm := h m (List.mem_cons_self m rest)
    subst hm
    simp [runMiddleware, ih (fun x hx => h x (List.mem_cons_of_mem _ hx))]

lemma runMiddleware_first_failure {pre : List MwResult} (b : MwResult)
    (post : List MwResult) (hpre : ∀ m ∈ pre, m = MwResult.cont)
    (hb : b = MwResult.block ∨ b = MwResult.throw) :
    runMiddleware (pre ++ b :: post) = (pre.length + 1, false) := by
  induction pre with
  | nil => rcases hb with h | h <;> subst h <;> rfl
  | cons m rest ih =>
    have hm := hpre m (List.mem_cons_self m rest)
    subst hm
    have ihr := ih (fun x hx => hpre x (List.mem_cons_of_mem _ hx))
    simp [runMiddleware, ihr]

lemma alistGet_del_self {α : Type} (m : List (String × α)) (k : String) :
    alistGet (alistDel m k) k = none := by
  induction m with
  | nil => rfl
  | cons e rest ih =>
    by_cases h : e.1 = k
    · simp [alistDel, h, ih]
    · simp [alistDel, alistGet, h, ih]

lemma alistGet_del_ne {α : Type} (m : List (String × α)) {k k' : String}
    (h : k ≠ k') : alistGet (alistDel m k) k' = alistGet m k' := by
  induction m with
  | nil => rfl
  | cons e rest ih =>
    by_cases he : e.1 = k
    · have he' : e.1 ≠ k' := by rw [he]; exact h
      simp [alistDel, alistGet, he, he', ih, h]
    · simp only [alistDel, if_neg he, alistGet]
      by_cases he' : e.1 = k'
      · simp [he']
      · simp [he', ih]

lemma alistGet_del_none {α : Type} {m : List (String × α)} {k k' : String}
    (h : alistGet m k' = none) : alistGet (alistDel m k) k' = none := by
  by_cases hk : k = k'
  · subst hk; exact alistGet_del_self m k
  · rw [alistGet_del_ne m hk]; exact h

lemma alistGet_foldl_del_none {α : Type} {k : String} :
    ∀ (L : List String) (m : List (String × α)), alistGet m k = none →
      alistGet (L.foldl (fun acc a => alistDel acc (pyLower a)) m) k = none
  | [], _, h => h
  | _ :: L, m, h => alistGet_foldl_del_none L _ (alistGet_del_none h)

lemma alistGet_foldl_del_mem {α : Type} {k : String} :
    ∀ (L : List String) (m : List (String × α)), (∃ a ∈ L, (pyLower a) = k) →
      alistGet (L.foldl (fun acc a => alistDel acc (pyLower a)) m) k = none
  | [], _, h => absurd h (by simp)
  | a :: L, m, h => by
    rcases h with ⟨x, hx, hxk⟩
    rcases List.mem_cons.mp hx with h1 | h1
    · subst h1
      refine alistGet_foldl_del_none L _ ?_
      show alistGet (alistDel m (pyLower x)) k = none
      rw [hxk]
      exact alistGet_del_self m k
    · exact alistGet_foldl_del_mem L _ ⟨x, h1, hxk⟩

/-! ## Claim theorems: dispatcher, lock, registry -/

/-- C6: in every dispatch, the middleware predicates run strictly in
registration order and the first one that returns false or raises ends the
dispatch — exactly the predicates up to and including it are invoked, the
registry lookup and the handler never happen, the result is failure, and the
dispatcher sends no message of its own on a middleware rejection. -/
theorem middleware_first_failure_halts_dispatch (pre post : List MwResult)
    (b : MwResult) (hl : Option HandlerResult) (uc ut ec et : Bool)
    (hpre : ∀ m ∈ pre, m = MwResult.cont)
    (hb : b = MwResult.block ∨ b = MwResult.throw) :
    execute_command
      { middleware := pre ++ b :: post, handlerLookup := hl
      , sendUnknownCardOk := uc, sendUnknownTextOk := ut
      , sendErrorCardOk := ec, sendErrorTextOk := et } =
    { middlewareRan := pre.length + 1, lookupHappened := false
    , handlerRan := false, messages := [], success := false } := by
  simp [execute_command, runMiddleware_first_failure b post hpre hb]

/-- Witness for C6: one passing middleware, then a blocking one, then one
more that must not run. -/
theorem middleware_first_failure_halts_dispatch_witness :
    execute_command
      { middleware := [MwResult.cont] ++ MwResult.block :: [MwResult.cont]
      , handlerLookup := some (HandlerResult.ok true)
      , sendUnknownCardOk := true, sendUnknownTextOk := true
      , sendErrorCardOk := true, sendErrorTextOk := true } =
    { middlewareRan := 2, lookupHappened := false
    , handlerRan := false, messages := [], success := false } := by
  have h := middleware_first_failure_halts_dispatch [MwResult.cont] [MwResult.cont]
    MwResult.block (some (HandlerResult.ok true)) true true true true
    (by decide) (Or.inl rfl)
  simpa using h

/-- C7: with all middleware passing, a handler that returns `False` yields a
failed dispatch with no dispatcher-generated message, while a handler that
raises yields a failed dispatch with a best-effort command-error response:
the rich card if its send works, the plain-text fallback if only that works,
nothing if both sends fail — and in every case `execute_command` returns
(it is a total function; no exception propagates to its caller). -/
theorem handler_soft_failure_vs_exception (ms : List MwResult)
    (uc ut ec et : Bool) (hms : ∀ m ∈ ms, m = MwResult.cont) :
    (execute_command
      { middleware := ms, handlerLookup := some (HandlerResult.ok false)
      , sendUnknownCardOk := uc, sendUnknownTextOk := ut
      , sendErrorCardOk := ec, sendErrorTextOk := et } =
      { middlewareRan := ms.length, lookupHappened := true, handlerRan := true
      , messages := [], success := false }) ∧
    (execute_command
      { middleware := ms, handlerLookup := some HandlerResult.throw
      , sendUnknownCardOk := uc, sendUnknownTextOk := ut
      , sendErrorCardOk := ec, sendErrorTextOk := et } =
      { middlewareRan := ms.length, lookupHappened := true, handlerRan := true
      , messages := send_error_message ec et, success := false }) ∧
    (ec = true → send_error_message ec et = [DispatcherMsg.errorCard]) ∧
    (ec = false → et = true → send_error_message ec et = [DispatcherMsg.errorText]) ∧
    (ec = false → et = false → send_error_message ec et = []) := by
  refine ⟨?_, ?_, ?_, ?_, ?_⟩
  · simp [execute_command, runMiddleware_all_cont hms]
  · simp [execute_command, runMiddleware_all_cont hms]
  · intro h; subst h; rfl
  · intro h1 h2; subst h1; subst h2; rfl
  · intro h1 h2; subst h1; subst h2; rfl

/-- Witness for C7: one passing middleware; the error-card send fails and
the text fallback succeeds. -/
theorem handler_soft_failure_vs_exception_witness :
    (execute_command
      { middleware := [MwResult.cont], handlerLookup := some (HandlerResult.ok false)
      , sendUnknownCardOk := true, sendUnknownTextOk := true
      , sendErrorCardOk := false, sendErrorTextOk := true } =
      { middlewareRan := 1, lookupHappened := true, handlerRan := true
      , messages := [], success := false }) ∧
    (execute_command
      { middleware := [MwResult.cont], handlerLookup := some HandlerResult.throw
      , sendUnknownCardOk := true, sendUnknownTextOk := true
      , sendErrorCardOk := false, sendErrorTextOk := true } =
      { middlewareRan := 1, lookupHappened := true, handlerRan := true
      , messages := send_error_message false true, success := false }) ∧
    (false = true → send_error_message false true = [DispatcherMsg.errorCard]) ∧
    (false = false → true = true → send_error_message false true = [DispatcherMsg.errorText]) ∧
    (false = false → true = false → send_error_message false true = []) := by
  have h := handler_soft_failure_vs_exception [MwResult.cont] true true false true
    (by decide)
  simpa using h

/-- C1 counterexample: with the execution lock already held, a dispatch of
the balance-check command is dropped in total silence — the handler returns
`False` without running its body and without sending anything, and the
dispatcher, seeing a `False` return, sends nothing either.  No
"already running, try again" response is produced anywhere on this path,
contradicting the claim. -/
theorem busy_check_counterexample :
    check_handle true BodyPath.success =
      { bodyRan := false, outcome := HandlerResult.ok false
      , messages := [], lockAfter := true } ∧
    (execute_command (envFix [] (some (HandlerResult.ok false)))).messages = [] ∧
    (execute_command (envFix [] (some (HandlerResult.ok false)))).success = false := by
  decide

/-- C1 (amended): when a dispatch of the balance-check command finds the
execution lock already held, the handler body does not run and `handle`
returns `False`; the dispatcher treats that as a soft failure, so the
dispatch result is failure but no user-visible response is produced by the
handler or the dispatcher — the request is dropped with only log entries. -/
theorem busy_check_dropped_silently (path : BodyPath) (ms : List MwResult)
    (uc ut ec et : Bool) (hms : ∀ m ∈ ms, m = MwResult.cont) :
    (check_handle true path).bodyRan = false ∧
    (check_handle true path).messages = [] ∧
    (check_handle true path).outcome = HandlerResult.ok false ∧
    execute_command
      { middleware := ms, handlerLookup := some (HandlerResult.ok false)
      , sendUnknownCardOk := uc, sendUnknownTextOk := ut
      , sendErrorCardOk := ec, sendErrorTextOk := et } =
      { middlewareRan := ms.length, lookupHappened := true, handlerRan := true
      , messages := [], success := false } := by
  refine ⟨rfl, rfl, rfl, ?_⟩
  simp [execute_command, runMiddleware_all_cont hms]

/-- Witness for the amended C1. -/
theorem busy_check_dropped_silently_witness :
    (check_handle true BodyPath.timeout).bodyRan = false ∧
    (check_handle true BodyPath.timeout).messages = [] ∧
    (check_handle true BodyPath.timeout).outcome = HandlerResult.ok false ∧
    execute_command
      { middleware := [MwResult.cont], handlerLookup := some (HandlerResult.ok false)
      , sendUnknownCardOk := true, sendUnknownTextOk := true
      , sendErrorCardOk := true, sendErrorTextOk := true } =
      { middlewareRan := 1, lookupHappened := true, handlerRan := true
      , messages := [], success := false } := by
  have h := busy_check_dropped_silently BodyPath.timeout [MwResult.cont]
    true true true true (by decide)
  simpa using h

/-- C4: every invocation of the balance-check handler that acquires the
execution lock leaves the lock released on termination, whichever
termination mode the body takes (normal success, soft failure, the
30-second fetch timeout, a caught exception, or an exception that escapes),
so an immediately following dispatch of the command acquires the lock and
runs its body. -/
theorem check_lock_released_every_termination (path path' : BodyPath) :
    (check_handle false path).lockAfter = false ∧
    (check_handle (check_handle false path).lockAfter path').bodyRan = true := by
  exact ⟨rfl, rfl⟩

/-- C8: `get_handler` agrees everywhere with the spec's resolution rule
(lowercase; primary name first; else one alias hop; else not found); after
registering `check` with alias `bal`, the tokens `BAL`, `Bal` and `bal` all
resolve to the check handler and an unknown token resolves to nothing; and
alias resolution never chains alias-to-alias: with `x ↦ y` and `y ↦ z` in
the alias map, `x` resolves to the handler named `y`, not to `z`'s
handler. -/
theorem get_handler_matches_resolution_spec (reg : HandlerRegistry) (tok : String) :
    reg.get_handler tok = resolve_spec reg tok ∧
    regCheckFix.get_handler "BAL" = some checkHandlerFix ∧
    regCheckFix.get_handler "Bal" = some checkHandlerFix ∧
    regCheckFix.get_handler "bal" = some checkHandlerFix ∧
    regCheckFix.get_handler "unknownalias" = none ∧
    regChainFix.get_handler "x" = some handlerYFix := by
  refine ⟨?_, by decide, by decide, by decide, by decide, by decide⟩
  unfold HandlerRegistry.get_handler resolve_spec
  cases h1 : alistGet reg.handlers (pyLower tok) <;>
    cases h2 : alistGet reg.aliases (pyLower tok) <;> simp [h1, h2]

/-- C10: if command `a` was registered declaring alias `x`, a later
registration of command `b` also declared `x` (remapping `x ↦ b`), then
`unregister(a)` removes the stored handler of `a` and deletes `x` from the
alias map anyway: afterwards `x` resolves to nothing even though `b` is
still registered and declares `x` — the alias invariant is not preserved. -/
theorem unregister_deletes_remapped_alias (reg : HandlerRegistry)
    (hA hB : Handler) (x : String)
    (hAreg : alistGet reg.handlers (pyLower hA.name) = some hA)
    (hBreg : alistGet reg.handlers (pyLower hB.name) = some hB)
    (hne : (pyLower hA.name) ≠ (pyLower hB.name))
    (hxA : x ∈ hA.aliases) (hxB : x ∈ hB.aliases)
    (hmap : alistGet reg.aliases (pyLower x) = some (pyLower hB.name))
    (hxnp : alistGet reg.handlers (pyLower x) = none) :
    (reg.unregister hA.name).1 = true ∧
    (reg.unregister hA.name).2.get_handler x = none ∧
    alistGet (reg.unregister hA.name).2.handlers (pyLower hB.name) = some hB := by
  have hun : reg.unregister hA.name =
      (true,
       { handlers := alistDel reg.handlers (pyLower hA.name)
       , aliases := hA.aliases.foldl (fun m a => alistDel m (pyLower a)) reg.aliases }) := by
    unfold HandlerRegistry.unregister
    simp [hAreg]
  refine ⟨by rw [hun], ?_, ?_⟩
  · rw [hun]
    have h1 : alistGet (alistDel reg.handlers (pyLower hA.name)) (pyLower x) = none :=
      alistGet_del_none hxnp
    have h2 : alistGet
        (hA.aliases.foldl (fun m a => alistDel m (pyLower a)) reg.aliases)
        (pyLower x) = none :=
      alistGet_foldl_del_mem hA.aliases reg.aliases ⟨x, hxA, rfl⟩
    unfold HandlerRegistry.get_handler
    simp [h1, h2]
  · rw [hun]
    show alistGet (alistDel reg.handlers (pyLower hA.name)) (pyLower hB.name) = some hB
    rw [alistGet_del_ne reg.handlers hne]
    exact hBreg

/-- Witness for C10 on the concrete shared-alias registry. -/
theorem unregister_deletes_remapped_alias_witness :
    (regSharedAliasFix.unregister "a").1 = true ∧
    (regSharedAliasFix.unregister "a").2.get_handler "x" = none ∧
    alistGet (regSharedAliasFix.unregister "a").2.handlers "b" = some handlerBFix := by
  have h := unregister_deletes_remapped_alias regSharedAliasFix
    handlerAFix handlerBFix "x" (by decide) (by decide) (by decide)
    (by decide) (by decide) (by decide) (by decide)
  simpa using h
